import Mathlib

/-!
Verification of the prxy reverse proxy (src/main.go) against its design
specification.  The Go handler `claudeProxyHandler`, its helpers
`validateAPIKey` and `extractAPIKey`, and the `net/http` response-writer
semantics it relies on are shallowly embedded below; the theorems settle
the spec claims about request normalization, credential validation, header
construction and the dual-mode (buffered / streaming) response relay.
-/

namespace Prxy

/-- Decoded JSON values, as produced by Go `encoding/json.Unmarshal` into an
`interface` value.  Go decodes JSON numbers to `float64`; every decoded
number is a rational, so numbers are carried as `Rat` (no arithmetic is ever
performed on them by the proxy). -/
inductive JValue : Type where
  | null : JValue
  | bool (b : Bool) : JValue
  | num (x : Rat) : JValue
  | str (s : String) : JValue
  | arr (elems : List JValue) : JValue
  | obj (fields : List (String × JValue)) : JValue

/-- Lookup in the decoded JSON object, i.e. Go `requestData[k]` on a
`map[string]interface` decoded by `Unmarshal` (keys are unique in a Go map;
on an association list the first binding is the map's binding). -/
def mapLookup : List (String × JValue) → String → Option JValue
  | [], _ => none
  | p :: rest, k => if p.1 = k then some p.2 else mapLookup rest k

/-- Go map assignment `requestData[k] = v`: replace the binding for `k` if
present, otherwise add it. -/
def mapSet : List (String × JValue) → String → JValue → List (String × JValue)
  | [], k, v => [(k, v)]
  | p :: rest, k, v => if p.1 = k then (k, v) :: rest else p :: mapSet rest k v

/-- src/main.go:304-310: `streamRequested` is `true` exactly when the decoded
body has a `stream` field whose value is the JSON boolean `true`; a missing
field or a non-boolean value leaves the `false` default in place. -/
def streamRequestedOf (requestData : List (String × JValue)) : Bool :=
  match mapLookup requestData "stream" with
  | some (JValue.bool b) => b
  | _ => false

/-- src/main.go:312-316: for non-streaming requests the handler forces
`requestData["stream"] = false`; when `streamRequested` is `true` the decoded
map is left untouched. -/
def normalizePayload (requestData : List (String × JValue)) : List (String × JValue) :=
  if streamRequestedOf requestData then requestData
  else mapSet requestData "stream" (JValue.bool false)

/-- `strings.Split s ","` on the character list of `s`: split at every
comma, keeping empty pieces (`Split("", ",")` is `[""]`, matching the
`[]` base case producing one empty piece). -/
def splitOnCommaChars : List Char → List (List Char)
  | [] => [[]]
  | c :: rest =>
      let r := splitOnCommaChars rest
      if c = ',' then [] :: r
      else (c :: r.headD []) :: r.tail

/-- `strings.TrimSpace`: drop leading and trailing whitespace characters
(ASCII whitespace; Go also trims the rarer Unicode space characters, which
never occur in API keys). -/
def goTrimSpace (s : String) : String :=
  String.mk (((s.data.dropWhile Char.isWhitespace).reverse.dropWhile
      Char.isWhitespace).reverse)

/-- src/main.go:223-229: the `ALLOWED_API_KEYS` environment value split on
commas, each entry trimmed of surrounding whitespace (`strings.Split` then
`strings.TrimSpace`). -/
def allowedKeyList (allowedAPIKeysStr : String) : List String :=
  (splitOnCommaChars allowedAPIKeysStr.data).map (fun cs => goTrimSpace (String.mk cs))

/-- src/main.go:212-239 `validateAPIKey`.  The environment variable
`ALLOWED_API_KEYS` read by the Go function is passed as the parameter
`allowedAPIKeysStr`.  An empty key is rejected; with no configured
allow-list every non-empty key is accepted; otherwise the key must equal
one of the trimmed entries. -/
def validateAPIKey (allowedAPIKeysStr : String) (key : String) : Bool :=
  if key = "" then false
  else if allowedAPIKeysStr = "" then true
  else (allowedKeyList allowedAPIKeysStr).any (fun allowedKey => key = allowedKey)

/-- A header map as carried by Go `http.Header`: canonical-cased keys mapped
to lists of values.  Go canonicalizes keys via `CanonicalMIMEHeaderKey`; two
keys collide exactly when they agree case-insensitively, which is modelled
by comparing lowercased keys. -/
abbrev Headers := List (String × List String)

/-- Case normalization of a header name (structural stand-in for comparing
Go canonical keys: two names collide exactly when they agree
case-insensitively). -/
def lowerKey (s : String) : String := String.mk (s.data.map Char.toLower)

/-- `http.Header.Set k v`: replace all values of the (case-insensitively
matched) key by the single value `v`, adding the entry if absent. -/
def hdrSet : Headers → String → String → Headers
  | [], k, v => [(k, [v])]
  | p :: rest, k, v =>
      if lowerKey p.1 = lowerKey k then (p.1, [v]) :: rest
      else p :: hdrSet rest k v

/-- `http.Header.Add k v`: append `v` to the values of the key, adding the
entry if absent. -/
def hdrAdd : Headers → String → String → Headers
  | [], k, v => [(k, [v])]
  | p :: rest, k, v =>
      if lowerKey p.1 = lowerKey k then (p.1, p.2 ++ [v]) :: rest
      else p :: hdrAdd rest k v

/-- All values of a key in a header map (`none` when the key is absent). -/
def hdrLookup (hs : Headers) (k : String) : Option (List String) :=
  match hs with
  | [] => none
  | p :: rest => if lowerKey p.1 = lowerKey k then some p.2 else hdrLookup rest k

/-- `http.Header.Get k`: the first value for the key, `""` when absent. -/
def hdrGet (hs : Headers) (k : String) : String :=
  match hdrLookup hs k with
  | some (v :: _) => v
  | _ => ""

/-- src/main.go:241-257 `extractAPIKey`: the `x-api-key` header value when
non-empty, else the `Authorization` value with its `Bearer ` prefix
stripped (`strings.TrimPrefix` after `strings.HasPrefix`), else `""`. -/
def extractAPIKey (hs : Headers) : String :=
  let apiKey := hdrGet hs "x-api-key"
  if apiKey ≠ "" then apiKey
  else
    let authHeader := hdrGet hs "Authorization"
    if authHeader.startsWith "Bearer " then authHeader.drop 7
    else ""

/-- src/main.go:26: the fixed `anthropic-version` constant. -/
def anthropicVersion : String := "2023-06-01"

/-- src/main.go:355-359: the four inbound header names copied onto the
upstream request (compared lowercased). -/
def forwardedHeaderNames : List String :=
  ["authorization", "x-api-key", "anthropic-version", "anthropic-beta"]

/-- src/main.go:349-370: headers of the outgoing upstream request.  The two
fixed headers are `Set` first; then every inbound header whose lowercased
name is in `forwardedHeaderNames` is `Set` value by value (so the last
inbound value wins).  Iteration over the inbound Go header map is modelled
in list order; entries with distinct keys commute under `Set`, and a Go
header map holds at most one entry per canonical key. -/
def forwardStep (acc : Headers) (p : String × List String) : Headers :=
  if forwardedHeaderNames.contains (lowerKey p.1) then
    p.2.foldl (fun acc2 v => hdrSet acc2 p.1 v) acc
  else acc

/-- The two fixed headers `Set` at src/main.go:350-351, before the
forwarding loop runs. -/
def baseProxyHeaders : Headers :=
  hdrSet (hdrSet [] "Content-Type" "application/json")
    "anthropic-version" anthropicVersion

def buildProxyHeaders (inboundHeaders : Headers) : Headers :=
  inboundHeaders.foldl forwardStep baseProxyHeaders

/-- Bytes are modelled as naturals (one per byte). -/
abbrev Bytes := List Nat

/-- Byte view of an ASCII string (code point per character). -/
def strBytes (s : String) : Bytes := s.data.map Char.toNat

/-- The bytes written by `json.NewEncoder(w).Encode(map[string]string{...})`
for the single-field error bodies the handler produces: the serialized
object followed by the encoder's trailing newline.  The messages used by
the handler contain no characters needing JSON escaping. -/
def encodeErrorBody (msg : String) : Bytes :=
  strBytes ("\x7b\"error\":\"" ++ msg ++ "\"\x7d\n")

/-- Body-level events observable by the caller: each `w.Write` payload and
each `flusher.Flush()`, in order. -/
inductive WEvent : Type where
  | write (b : Bytes) : WEvent
  | flush : WEvent
deriving DecidableEq

/-- Go `net/http` response-writer state.  `pending` is the mutable header
map (`w.Header()`); the first `WriteHeader` snapshots it into `sentHeaders`
together with the status line, and later `WriteHeader` calls or header-map
mutations have no effect on what the caller receives. -/
structure ResponseWriter : Type where
  pending : Headers
  wroteHeader : Bool
  sentStatus : Nat
  sentHeaders : Headers
  events : List WEvent
deriving DecidableEq

/-- The fresh writer handed to the handler. -/
def ResponseWriter.init : ResponseWriter :=
  { pending := [], wroteHeader := false, sentStatus := 0, sentHeaders := [], events := [] }

/-- `w.Header().Set k v`: mutates only the pending map. -/
def rwSetHeader (w : ResponseWriter) (k v : String) : ResponseWriter :=
  { w with pending := hdrSet w.pending k v }

/-- `w.Header().Add k v`: mutates only the pending map. -/
def rwAddHeader (w : ResponseWriter) (k v : String) : ResponseWriter :=
  { w with pending := hdrAdd w.pending k v }

/-- `w.WriteHeader code`: on the first call, send the status line and the
current header map; any further call is superfluous and ignored (Go logs
`http: superfluous response.WriteHeader call`). -/
def rwWriteHeader (w : ResponseWriter) (code : Nat) : ResponseWriter :=
  if w.wroteHeader then w
  else { w with wroteHeader := true, sentStatus := code, sentHeaders := w.pending }

/-- `w.Write b`: an implicit `WriteHeader 200` when none was sent yet, then
the body bytes go out. -/
def rwWrite (w : ResponseWriter) (b : Bytes) : ResponseWriter :=
  let w1 := rwWriteHeader w 200
  { w1 with events := w1.events ++ [WEvent.write b] }

/-- `flusher.Flush()`. -/
def rwFlush (w : ResponseWriter) : ResponseWriter :=
  { w with events := w.events ++ [WEvent.flush] }

/-- The successive `w.Write` payloads, in order. -/
def writesOf (w : ResponseWriter) : List Bytes :=
  w.events.filterMap (fun e => match e with | WEvent.write b => some b | WEvent.flush => none)

/-- The number of flushes issued. -/
def flushesOf (w : ResponseWriter) : Nat :=
  (w.events.filterMap (fun e => match e with | WEvent.write _ => none | WEvent.flush => some 0)).length

/-- `http.StatusOK`. -/
def statusOK : Nat := 200

/-- The upstream (Claude API) response as the handler consumes it:
status code, header map, the outcome of `io.ReadAll(resp.Body)` on the
buffered path (`none` models a read error), and on the streaming path the
successive non-final `resp.Body.Read(buffer)` results (each at most the
1024-byte buffer; the sequence ends with EOF or a read error, after which
the loop stops). -/
structure UpstreamResponse : Type where
  status : Nat
  headers : Headers
  bufferedBody : Option Bytes
  streamChunks : List Bytes
deriving DecidableEq

/-- src/main.go:449: `buffer := make([]byte, 1024)` — every streaming read
returns at most this many bytes. -/
def streamBufferSize : Nat := 1024

/-- src/main.go:390-394: copy every upstream header value onto the caller's
response via `Add`. -/
def copyHeaders (hs : Headers) (w : ResponseWriter) : ResponseWriter :=
  hs.foldl (fun w1 p => p.2.foldl (fun w2 v => rwAddHeader w2 p.1 v) w1) w

/-- src/main.go:458-478: the streaming relay loop.  Each read that returned
`n > 0` bytes is written to the caller and immediately flushed; the loop
ends at EOF or on a read error (write errors abort delivery of later
chunks and are not modelled — the relayed prefix is unchanged by them). -/
def streamLoop (w : ResponseWriter) : List Bytes → ResponseWriter
  | [] => w
  | chunk :: rest =>
      if 0 < chunk.length then streamLoop (rwFlush (rwWrite w chunk)) rest
      else streamLoop w rest

/-- src/main.go:389-479: relay of the upstream response to the caller,
entered right after `client.Do` succeeded.  `validJSON` is the oracle for
`json.Unmarshal` succeeding on a byte string; `flusherOk` is whether the
writer supports `http.Flusher`.  Mirrors the source line by line: copy
upstream headers, `Set` content-type, `WriteHeader(resp.StatusCode)`, then
the buffered branch (with its JSON validation of non-streaming 200 bodies)
or the streaming branch (flusher check, SSE header writes, chunk loop). -/
def relayResponse (validJSON : Bytes → Bool) (flusherOk : Bool)
    (streamRequested : Bool) (resp : UpstreamResponse)
    (w0 : ResponseWriter) : ResponseWriter :=
  let w1 := copyHeaders resp.headers w0
  let w2 := rwSetHeader w1 "Content-Type" "application/json"
  let w3 := rwWriteHeader w2 resp.status
  if streamRequested = false ∨ resp.status ≠ statusOK then
    match resp.bufferedBody with
    | none => w3
    | some responseBody =>
        if streamRequested = false ∧ resp.status = statusOK ∧ validJSON responseBody = false then
          let w4 := rwWriteHeader w3 500
          rwWrite w4 (encodeErrorBody "Invalid JSON in Claude API response")
        else
          let w4 :=
            if streamRequested = false ∧ resp.status = statusOK then
              rwSetHeader w3 "Content-Type" "application/json"
            else w3
          rwWrite w4 responseBody
  else
    if flusherOk = false then
      let w4 := rwWriteHeader w3 500
      rwWrite w4 (encodeErrorBody "Streaming not supported by server")
    else
      let w4 := rwSetHeader w3 "Content-Type" "text/event-stream"
      let w5 := rwSetHeader w4 "Cache-Control" "no-cache"
      let w6 := rwSetHeader w5 "Connection" "keep-alive"
      streamLoop w6 resp.streamChunks

/-- The caller's inbound request: header map and body bytes (the body is
taken as already read; an `io.ReadAll(r.Body)` failure ends the handler
with a 400 before any of the logic modelled here runs). -/
structure InboundRequest : Type where
  headers : Headers
  body : Bytes

/-- Outcome of `client.Do(proxyReq)`: a transport error, or a response. -/
inductive UpstreamOutcome : Type where
  | transportError : UpstreamOutcome
  | response (resp : UpstreamResponse) : UpstreamOutcome

/-- src/main.go:260-479 `claudeProxyHandler`, with its external calls as
parameters: `parseJSON` is `json.Unmarshal` of the inbound body into a map
(`none` = error), `validJSON` the validity oracle used on the upstream
body, `upstream` the single `client.Do` call (given the proxy headers built
by `buildProxyHeaders` and the normalized payload).  Returns the final
writer state and the number of upstream HTTP calls issued.
`json.Marshal` of a map decoded by `Unmarshal` and `http.NewRequest` on the
constant method/URL cannot fail, so their error branches are unreachable
and not modelled. -/
def handleRequest (allowedAPIKeysStr : String)
    (parseJSON : Bytes → Option (List (String × JValue)))
    (validJSON : Bytes → Bool) (flusherOk : Bool)
    (upstream : Headers → List (String × JValue) → UpstreamOutcome)
    (req : InboundRequest) : ResponseWriter × Nat :=
  let w := ResponseWriter.init
  let apiKey := extractAPIKey req.headers
  if validateAPIKey allowedAPIKeysStr apiKey = false then
    (rwWrite (rwWriteHeader w 401) (encodeErrorBody "Unauthorized: Invalid API key"), 0)
  else
    match parseJSON req.body with
    | none =>
        (rwWrite (rwWriteHeader w 400) (encodeErrorBody "Invalid JSON request body"), 0)
    | some requestData =>
        let streamRequested := streamRequestedOf requestData
        let modifiedBody := normalizePayload requestData
        let proxyHeaders := buildProxyHeaders req.headers
        match upstream proxyHeaders modifiedBody with
        | UpstreamOutcome.transportError =>
            (rwWrite (rwWriteHeader w 500)
              (encodeErrorBody "Failed to send request to Claude API"), 1)
        | UpstreamOutcome.response resp =>
            (relayResponse validJSON flusherOk streamRequested resp w, 1)

theorem mapLookup_mapSet_self (m : List (String × JValue)) (k : String) (v : JValue) :
    mapLookup (mapSet m k v) k = some v := by
  induction m with
  | nil => simp [mapSet, mapLookup]
  | cons p rest ih =>
      by_cases h : p.1 = k
      · simp [mapSet, h, mapLookup]
      · simp [mapSet, h, mapLookup, ih]

theorem mapLookup_mapSet_other (m : List (String × JValue)) (k q : String) (v : JValue)
    (h : q ≠ k) : mapLookup (mapSet m k v) q = mapLookup m q := by
  induction m with
  | nil => simp [mapSet, mapLookup, Ne.symm h]
  | cons p rest ih =>
      by_cases hp : p.1 = k
      · simp [mapSet, hp, mapLookup, Ne.symm h]
      · simp [mapSet, hp, mapLookup, ih]

theorem streamRequestedOf_eq_true_iff (requestData : List (String × JValue)) :
    streamRequestedOf requestData = true ↔
      mapLookup requestData "stream" = some (JValue.bool true) := by
  unfold streamRequestedOf
  cases h : mapLookup requestData "stream" with
  | none => simp
  | some v => cases v <;> simp

/-- C5: for every request body that parses as a JSON mapping,
`streamRequested` is `true` exactly when the mapping's `stream` field is
present and is literally the JSON boolean `true` (absent, non-boolean and
`false` all yield `false`), and the normalized payload sent upstream always
carries `stream` explicitly set to the boolean `streamRequested`. -/
theorem c5_stream_flag_normalization (requestData : List (String × JValue)) :
    (streamRequestedOf requestData = true ↔
        mapLookup requestData "stream" = some (JValue.bool true))
    ∧ mapLookup (normalizePayload requestData) "stream"
        = some (JValue.bool (streamRequestedOf requestData)) := by
  refine ⟨streamRequestedOf_eq_true_iff requestData, ?_⟩
  by_cases h : streamRequestedOf requestData = true
  · have hl := (streamRequestedOf_eq_true_iff requestData).mp h
    simp [normalizePayload, h, hl]
  · have h' : streamRequestedOf requestData = false := by
      cases hb : streamRequestedOf requestData
      · rfl
      · exact absurd hb h
    simp [normalizePayload, h', mapLookup_mapSet_self]

/-- C7: normalization changes at most the `stream` field — every other field
of the decoded mapping is looked up unchanged in the payload sent
upstream. -/
theorem c7_normalization_preserves_other_fields
    (requestData : List (String × JValue)) (k : String) (h : k ≠ "stream") :
    mapLookup (normalizePayload requestData) k = mapLookup requestData k := by
  unfold normalizePayload
  by_cases hs : streamRequestedOf requestData
  · simp [hs]
  · simp [hs, mapLookup_mapSet_other _ _ _ _ h]

theorem c7_normalization_preserves_other_fields_witness :
    mapLookup (normalizePayload [("model", JValue.str "m"), ("stream", JValue.str "yes")])
        "model"
      = mapLookup [("model", JValue.str "m"), ("stream", JValue.str "yes")] "model" :=
  c7_normalization_preserves_other_fields _ "model" (by decide)

/-- C8: `validateAPIKey` rejects the empty credential under every
configuration, accepts every non-empty credential when no allow-list is
configured, and with an allow-list configured accepts a credential exactly
when it equals one of the comma-split, whitespace-trimmed entries. -/
theorem c8_validateAPIKey_policy (allowed key : String) :
    validateAPIKey allowed "" = false
    ∧ (allowed = "" → key ≠ "" → validateAPIKey allowed key = true)
    ∧ (allowed ≠ "" →
        (validateAPIKey allowed key = true ↔
          key ≠ "" ∧ ∃ entry ∈ allowedKeyList allowed, key = entry)) := by
  refine ⟨by simp [validateAPIKey],
    fun ha hk => by simp [validateAPIKey, ha, hk],
    fun ha => ?_⟩
  by_cases hk : key = ""
  · simp [validateAPIKey, hk]
  · simp [validateAPIKey, hk, ha, List.any_eq_true]

theorem c8_validateAPIKey_policy_witness :
    validateAPIKey "good-key,other-key" "good-key" = true :=
  ((c8_validateAPIKey_policy "good-key,other-key" "good-key").2.2 (by decide)).mpr
    ⟨by decide, "good-key", by decide, rfl⟩

/-- C10: the supplied credential is compared untrimmed against the trimmed
allow-list entries: a credential that matches an entry only after trimming
its own surrounding whitespace is rejected, and acceptance implies the
credential is byte-identical to some trimmed entry. -/
theorem c10_untrimmed_credential (allowed key : String) (ha : allowed ≠ "") :
    (goTrimSpace key ∈ allowedKeyList allowed → key ∉ allowedKeyList allowed →
        validateAPIKey allowed key = false)
    ∧ (validateAPIKey allowed key = true → key ∈ allowedKeyList allowed) := by
  have hmem : validateAPIKey allowed key = true → key ∈ allowedKeyList allowed := by
    intro hv
    by_cases hk : key = ""
    · simp [validateAPIKey, hk] at hv
    · simp only [validateAPIKey, if_neg hk, if_neg ha, List.any_eq_true,
        decide_eq_true_eq] at hv
      obtain ⟨x, hx, rfl⟩ := hv
      exact hx
  refine ⟨fun _ hnot => ?_, hmem⟩
  cases hv : validateAPIKey allowed key
  · rfl
  · exact absurd (hmem hv) hnot

theorem c10_untrimmed_credential_witness :
    validateAPIKey "good-key" " good-key" = false :=
  (c10_untrimmed_credential "good-key" " good-key" (by decide)).1 (by decide) (by decide)

theorem hdrLookup_hdrSet_eq (hs : Headers) (k v q : String)
    (h : lowerKey q = lowerKey k) :
    hdrLookup (hdrSet hs k v) q = some [v] := by
  induction hs with
  | nil => simp [hdrSet, hdrLookup, h.symm]
  | cons p rest ih =>
      by_cases hp : lowerKey p.1 = lowerKey k
      · simp [hdrSet, hp, hdrLookup, h.symm]
      · have hpq : ¬ lowerKey p.1 = lowerKey q := fun hc => hp (hc.trans h)
        simp [hdrSet, hp, hdrLookup, hpq, ih]

theorem hdrLookup_hdrSet_ne (hs : Headers) (k v q : String)
    (h : lowerKey q ≠ lowerKey k) :
    hdrLookup (hdrSet hs k v) q = hdrLookup hs q := by
  induction hs with
  | nil => simp [hdrSet, hdrLookup, Ne.symm h]
  | cons p rest ih =>
      by_cases hp : lowerKey p.1 = lowerKey k
      · have hpq : ¬ lowerKey p.1 = lowerKey q := fun hc => h (hc.symm.trans hp)
        simp [hdrSet, hp, hdrLookup, hpq, Ne.symm h]
      · simp [hdrSet, hp, hdrLookup, ih]

theorem hdrLookup_foldl_hdrSet_ne (vs : List String) (acc : Headers) (k q : String)
    (h : lowerKey q ≠ lowerKey k) :
    hdrLookup (vs.foldl (fun a v => hdrSet a k v) acc) q = hdrLookup acc q := by
  induction vs generalizing acc with
  | nil => rfl
  | cons v rest ih =>
      rw [List.foldl_cons, ih, hdrLookup_hdrSet_ne _ _ _ _ h]

theorem forwardStep_preserves (p : String × List String) (acc : Headers) (q : String)
    (h : lowerKey q ≠ lowerKey p.1) :
    hdrLookup (forwardStep acc p) q = hdrLookup acc q := by
  by_cases hc : lowerKey p.1 ∈ forwardedHeaderNames
  · simp [forwardStep, hc, hdrLookup_foldl_hdrSet_ne _ _ _ _ h]
  · simp [forwardStep, hc]

theorem foldl_forwardStep_preserves (hs : Headers) (q : String) :
    ∀ acc, (∀ p ∈ hs, lowerKey q ≠ lowerKey p.1) →
      hdrLookup (hs.foldl forwardStep acc) q = hdrLookup acc q := by
  induction hs with
  | nil => intro acc _; rfl
  | cons p rest ih =>
      intro acc h
      rw [List.foldl_cons, ih _ (fun p' hp' => h p' (List.mem_cons_of_mem _ hp'))]
      exact forwardStep_preserves _ _ _ (h p (List.mem_cons_self _ _))

/-- C3 counterexample: an inbound request carrying
`anthropic-version: 2024-01-01` reaches the upstream with that
caller-supplied value, not with the fixed configured value — the
caller-supplied value does reach the upstream in that header. -/
theorem c3_version_header_counterexample :
    hdrLookup (buildProxyHeaders [("Anthropic-Version", ["2024-01-01"])])
        "anthropic-version" = some ["2024-01-01"]
    ∧ hdrLookup (buildProxyHeaders [("Anthropic-Version", ["2024-01-01"])])
        "anthropic-version" ≠ some [anthropicVersion] := by
  decide

/-- C3 amended: the fixed `anthropic-version` value is only a default.  It
is `Set` before the forwarding loop, but the loop then copies a
caller-supplied `anthropic-version` header over it (that name is in the
forwarding allow-list), so the last caller-supplied value is what reaches
the upstream; the fixed value is sent exactly when the caller supplied no
such header. -/
theorem c3_amended_version_header (hs : Headers) :
    ((∀ p ∈ hs, lowerKey p.1 ≠ lowerKey "anthropic-version") →
        hdrLookup (buildProxyHeaders hs) "anthropic-version" = some [anthropicVersion])
    ∧ (∀ pre post k v,
        hs = pre ++ (k, [v]) :: post →
        lowerKey k = lowerKey "anthropic-version" →
        (∀ p ∈ post, lowerKey p.1 ≠ lowerKey "anthropic-version") →
        hdrLookup (buildProxyHeaders hs) "anthropic-version" = some [v]) := by
  constructor
  · intro h
    rw [buildProxyHeaders,
      foldl_forwardStep_preserves hs "anthropic-version" _ (fun p hp => (h p hp).symm)]
    decide
  · intro pre post k v heq hk hpost
    subst heq
    rw [buildProxyHeaders, List.foldl_append, List.foldl_cons,
      foldl_forwardStep_preserves post "anthropic-version" _
        (fun p hp => (hpost p hp).symm)]
    have hcont : forwardedHeaderNames.contains (lowerKey k) = true := by
      rw [hk]; decide
    simp only [forwardStep, hcont, if_true, List.foldl_cons, List.foldl_nil]
    exact hdrLookup_hdrSet_eq _ _ _ _ hk.symm

theorem c3_amended_version_header_witness :
    hdrLookup (buildProxyHeaders [("Anthropic-Version", ["2024-01-01"])])
      "anthropic-version" = some ["2024-01-01"] :=
  (c3_amended_version_header _).2 [] [] "Anthropic-Version" "2024-01-01" rfl
    (by decide) (by simp)

/-- The caller-visible coordinates of a writer other than the pending
header map. -/
def rwCore (w : ResponseWriter) : Bool × Nat × Headers × List WEvent :=
  (w.wroteHeader, w.sentStatus, w.sentHeaders, w.events)

theorem rwCore_foldl_rwAddHeader (vs : List String) (k : String) (w : ResponseWriter) :
    rwCore (vs.foldl (fun w2 v => rwAddHeader w2 k v) w) = rwCore w := by
  induction vs generalizing w with
  | nil => rfl
  | cons v rest ih => rw [List.foldl_cons]; exact ih _

theorem rwCore_copyHeaders (hs : Headers) (w : ResponseWriter) :
    rwCore (copyHeaders hs w) = rwCore w := by
  induction hs generalizing w with
  | nil => rfl
  | cons p rest ih =>
      simp only [copyHeaders, List.foldl_cons]
      exact (ih _).trans (rwCore_foldl_rwAddHeader p.2 p.1 w)

theorem rwSetHeader_core (w : ResponseWriter) (k v : String) :
    rwCore (rwSetHeader w k v) = rwCore w := rfl

theorem rwWriteHeader_events (w : ResponseWriter) (code : Nat) :
    (rwWriteHeader w code).events = w.events := by
  unfold rwWriteHeader; split <;> rfl

theorem rwWriteHeader_of_wrote (w : ResponseWriter) (code : Nat)
    (h : w.wroteHeader = true) : rwWriteHeader w code = w := by
  simp [rwWriteHeader, h]

theorem rwWrite_events (w : ResponseWriter) (b : Bytes) :
    (rwWrite w b).events = w.events ++ [WEvent.write b] := by
  by_cases h : w.wroteHeader <;> simp [rwWrite, rwWriteHeader, h]

theorem rwWrite_wroteHeader (w : ResponseWriter) (b : Bytes) :
    (rwWrite w b).wroteHeader = true := by
  by_cases h : w.wroteHeader <;> simp [rwWrite, rwWriteHeader, h]

theorem rwWrite_sentStatus (w : ResponseWriter) (b : Bytes)
    (h : w.wroteHeader = true) : (rwWrite w b).sentStatus = w.sentStatus := by
  simp [rwWrite, rwWriteHeader, h]

theorem rwFlush_events (w : ResponseWriter) :
    (rwFlush w).events = w.events ++ [WEvent.flush] := rfl

/-- State of the writer at src/main.go:396, after the upstream header copy,
the content-type `Set` and `WriteHeader(resp.StatusCode)` on a fresh
writer: the status line is out, carrying the upstream status, and no body
events have happened. -/
theorem relayHead_spec (resp : UpstreamResponse) :
    (rwWriteHeader (rwSetHeader (copyHeaders resp.headers ResponseWriter.init)
        "Content-Type" "application/json") resp.status).wroteHeader = true
    ∧ (rwWriteHeader (rwSetHeader (copyHeaders resp.headers ResponseWriter.init)
        "Content-Type" "application/json") resp.status).sentStatus = resp.status
    ∧ (rwWriteHeader (rwSetHeader (copyHeaders resp.headers ResponseWriter.init)
        "Content-Type" "application/json") resp.status).events = [] := by
  have h := rwCore_copyHeaders resp.headers ResponseWriter.init
  have hw : (copyHeaders resp.headers ResponseWriter.init).wroteHeader = false :=
    congrArg (fun t => t.1) h
  have he : (copyHeaders resp.headers ResponseWriter.init).events = [] :=
    congrArg (fun t => t.2.2.2) h
  simp [rwWriteHeader, rwSetHeader, hw, he]

theorem streamLoop_events (chunks : List Bytes) :
    ∀ w, (streamLoop w chunks).events
      = w.events ++ ((chunks.filter (fun c => decide (0 < c.length))).map
          (fun c => [WEvent.write c, WEvent.flush])).flatten := by
  induction chunks with
  | nil => intro w; simp [streamLoop]
  | cons c rest ih =>
      intro w
      by_cases h : 0 < c.length
      · simp [streamLoop, h, ih, rwFlush_events, rwWrite_events]
      · simp [streamLoop, h, ih]

theorem filterMap_writeFlush (cs : List Bytes) :
    ((cs.map (fun c => [WEvent.write c, WEvent.flush])).flatten).filterMap
        (fun e => match e with | WEvent.write b => some b | WEvent.flush => none) = cs := by
  induction cs with
  | nil => rfl
  | cons c rest ih => simp [ih]

theorem join_filter_pos (chunks : List Bytes) :
    (chunks.filter (fun c => decide (0 < c.length))).flatten = chunks.flatten := by
  induction chunks with
  | nil => rfl
  | cons c rest ih =>
      by_cases h : 0 < c.length
      · simp [h, ih]
      · have hc : c = [] := List.length_eq_zero.mp (Nat.eq_zero_of_not_pos h)
        subst hc; simp [ih]

theorem rwSetHeader_wroteHeader (w : ResponseWriter) (k v : String) :
    (rwSetHeader w k v).wroteHeader = w.wroteHeader := rfl

theorem rwSetHeader_sentStatus (w : ResponseWriter) (k v : String) :
    (rwSetHeader w k v).sentStatus = w.sentStatus := rfl

theorem rwSetHeader_events (w : ResponseWriter) (k v : String) :
    (rwSetHeader w k v).events = w.events := rfl

/-- Behaviour of the buffered branch of the relay (src/main.go:399-434) on
a successful body read, outside the invalid-JSON sub-case: the upstream
status is what was sent to the caller, the whole body goes out in exactly
one write, and nothing is flushed explicitly. -/
theorem relay_buffered_spec (validJSON : Bytes → Bool) (flusherOk : Bool)
    (streamRequested : Bool) (resp : UpstreamResponse) (body : Bytes)
    (hns : ¬(streamRequested = true ∧ resp.status = statusOK))
    (hread : resp.bufferedBody = some body)
    (hval : streamRequested = false → resp.status = statusOK → validJSON body = true) :
    (relayResponse validJSON flusherOk streamRequested resp ResponseWriter.init).sentStatus
        = resp.status
    ∧ writesOf (relayResponse validJSON flusherOk streamRequested resp ResponseWriter.init)
        = [body]
    ∧ flushesOf (relayResponse validJSON flusherOk streamRequested resp ResponseWriter.init)
        = 0 := by
  have hcond : streamRequested = false ∨ resp.status ≠ statusOK := by
    cases streamRequested
    · exact Or.inl rfl
    · exact Or.inr (fun h => hns ⟨rfl, h⟩)
  have hbad : ¬(streamRequested = false ∧ resp.status = statusOK ∧ validJSON body = false) := by
    rintro ⟨h1, h2, h3⟩
    rw [hval h1 h2] at h3
    simp at h3
  obtain ⟨hwrote, hstat, hev⟩ := relayHead_spec resp
  have hrel : relayResponse validJSON flusherOk streamRequested resp ResponseWriter.init
      = rwWrite
          (if streamRequested = false ∧ resp.status = statusOK then
            rwSetHeader (rwWriteHeader (rwSetHeader (copyHeaders resp.headers
                ResponseWriter.init) "Content-Type" "application/json") resp.status)
              "Content-Type" "application/json"
          else rwWriteHeader (rwSetHeader (copyHeaders resp.headers ResponseWriter.init)
              "Content-Type" "application/json") resp.status)
          body := by
    simp only [relayResponse, hread]
    rw [if_pos hcond, if_neg hbad]
  rw [hrel]
  by_cases hc : streamRequested = false ∧ resp.status = statusOK
  · rw [if_pos hc]
    refine ⟨?_, ?_, ?_⟩
    · rw [rwWrite_sentStatus _ _ (by rw [rwSetHeader_wroteHeader, hwrote]),
        rwSetHeader_sentStatus, hstat]
    · simp [writesOf, rwWrite_events, rwSetHeader_events, hev]
    · simp [flushesOf, rwWrite_events, rwSetHeader_events, hev]
  · rw [if_neg hc]
    refine ⟨?_, ?_, ?_⟩
    · rw [rwWrite_sentStatus _ _ hwrote, hstat]
    · simp [writesOf, rwWrite_events, hev]
    · simp [flushesOf, rwWrite_events, hev]

/-- Behaviour of the streaming branch of the relay (src/main.go:436-479):
the caller's event sequence is exactly one write followed by one flush for
every non-empty upstream read, in read order. -/
theorem relay_stream_events (validJSON : Bytes → Bool) (resp : UpstreamResponse)
    (hstatus : resp.status = statusOK) :
    (relayResponse validJSON true true resp ResponseWriter.init).events
      = ((resp.streamChunks.filter (fun c => decide (0 < c.length))).map
          (fun c => [WEvent.write c, WEvent.flush])).flatten := by
  obtain ⟨hwrote, hstat, hev⟩ := relayHead_spec resp
  have hcond : ¬(true = false ∨ resp.status ≠ statusOK) := by simp [hstatus]
  have hrel : relayResponse validJSON true true resp ResponseWriter.init
      = streamLoop (rwSetHeader (rwSetHeader (rwSetHeader (rwWriteHeader (rwSetHeader
          (copyHeaders resp.headers ResponseWriter.init) "Content-Type" "application/json")
          resp.status) "Content-Type" "text/event-stream") "Cache-Control" "no-cache")
          "Connection" "keep-alive") resp.streamChunks := by
    simp only [relayResponse]
    rw [if_neg hcond, if_neg (by simp : ¬(true = false))]
  rw [hrel, streamLoop_events]
  simp [rwSetHeader_events, hev]

/-- C2: the relay enters the streaming branch exactly when the caller asked
to stream and the upstream status is the success code; in every other case
the response is relayed buffered — the caller's status line carries the
upstream's status and the whole body goes out in one write with no
flushing — while in the streaming case the caller observes the per-chunk
write-and-flush event sequence. -/
theorem c2_relay_mode_selection (validJSON : Bytes → Bool) (flusherOk : Bool)
    (streamRequested : Bool) (resp : UpstreamResponse) (body : Bytes) :
    (¬(streamRequested = true ∧ resp.status = statusOK) →
        resp.bufferedBody = some body →
        (streamRequested = false → resp.status = statusOK → validJSON body = true) →
        (relayResponse validJSON flusherOk streamRequested resp ResponseWriter.init).sentStatus
            = resp.status
          ∧ writesOf (relayResponse validJSON flusherOk streamRequested resp
              ResponseWriter.init) = [body]
          ∧ flushesOf (relayResponse validJSON flusherOk streamRequested resp
              ResponseWriter.init) = 0)
    ∧ (streamRequested = true → resp.status = statusOK → flusherOk = true →
        (relayResponse validJSON flusherOk streamRequested resp ResponseWriter.init).events
          = ((resp.streamChunks.filter (fun c => decide (0 < c.length))).map
              (fun c => [WEvent.write c, WEvent.flush])).flatten) := by
  refine ⟨fun hns hread hval =>
    relay_buffered_spec validJSON flusherOk streamRequested resp body hns hread hval,
    fun h1 h2 h3 => ?_⟩
  subst h1; subst h3
  exact relay_stream_events validJSON resp h2

theorem c2_relay_mode_selection_witness :
    (relayResponse (fun _ => true) true true ⟨500, [], some (strBytes "err"), []⟩
        ResponseWriter.init).sentStatus = 500
    ∧ writesOf (relayResponse (fun _ => true) true true
        ⟨500, [], some (strBytes "err"), []⟩ ResponseWriter.init) = [strBytes "err"]
    ∧ flushesOf (relayResponse (fun _ => true) true true
        ⟨500, [], some (strBytes "err"), []⟩ ResponseWriter.init) = 0 :=
  (c2_relay_mode_selection (fun _ => true) true true ⟨500, [], some (strBytes "err"), []⟩
    (strBytes "err")).1 (by decide) rfl (by decide)

/-- C6: for every request that enters the streaming branch, the caller
receives exactly the upstream byte stream: every non-empty read (reads are
bounded by the 1024-byte buffer) is written in read order and flushed
immediately, and the concatenation of the written chunks equals the
concatenation of the upstream's chunks. -/
theorem c6_stream_byte_exact (validJSON : Bytes → Bool) (resp : UpstreamResponse)
    (hstatus : resp.status = statusOK)
    (hsize : ∀ c ∈ resp.streamChunks, c.length ≤ streamBufferSize) :
    writesOf (relayResponse validJSON true true resp ResponseWriter.init)
        = resp.streamChunks.filter (fun c => decide (0 < c.length))
    ∧ (writesOf (relayResponse validJSON true true resp ResponseWriter.init)).flatten
        = resp.streamChunks.flatten
    ∧ (∀ b ∈ writesOf (relayResponse validJSON true true resp ResponseWriter.init),
        0 < b.length ∧ b.length ≤ streamBufferSize)
    ∧ (relayResponse validJSON true true resp ResponseWriter.init).events
        = ((resp.streamChunks.filter (fun c => decide (0 < c.length))).map
            (fun c => [WEvent.write c, WEvent.flush])).flatten := by
  have hev := relay_stream_events validJSON resp hstatus
  have hw : writesOf (relayResponse validJSON true true resp ResponseWriter.init)
      = resp.streamChunks.filter (fun c => decide (0 < c.length)) := by
    rw [writesOf, hev, filterMap_writeFlush]
  refine ⟨hw, ?_, ?_, hev⟩
  · rw [hw, join_filter_pos]
  · intro b hb
    rw [hw] at hb
    obtain ⟨hmem, hpb⟩ := List.mem_filter.mp hb
    exact ⟨of_decide_eq_true hpb, hsize b hmem⟩

theorem c6_stream_byte_exact_witness :
    (relayResponse (fun _ => true) true true
        ⟨200, [], none, [strBytes "data: 1\n\n", [], strBytes "data: 2\n\n"]⟩
        ResponseWriter.init).events
      = [WEvent.write (strBytes "data: 1\n\n"), WEvent.flush,
          WEvent.write (strBytes "data: 2\n\n"), WEvent.flush] := by
  have h := (c6_stream_byte_exact (fun _ => true)
      ⟨200, [], none, [strBytes "data: 1\n\n", [], strBytes "data: 2\n\n"]⟩
      rfl (by decide)).2.2.2
  exact h.trans (by decide)

/-- C1 at a concrete failing input (code bug): a non-streaming request
whose upstream call returns 200 with body `not json` (the JSON-validity
oracle recognizes only the handler's own error body, so `not json` is
malformed).  The handler keeps the malformed bytes away from the caller
and writes the structured error body, but the caller receives status 200,
not a server error: `WriteHeader(resp.StatusCode)` at src/main.go:396 has
already sent the status line, so the `WriteHeader(500)` at src/main.go:419
is superfluous and ignored. -/
theorem c1_invalid_json_code_bug :
    (relayResponse
        (fun b => decide (b = encodeErrorBody "Invalid JSON in Claude API response"))
        true false ⟨200, [], some (strBytes "not json"), []⟩
        ResponseWriter.init).sentStatus = 200
    ∧ writesOf (relayResponse
        (fun b => decide (b = encodeErrorBody "Invalid JSON in Claude API response"))
        true false ⟨200, [], some (strBytes "not json"), []⟩
        ResponseWriter.init)
      = [encodeErrorBody "Invalid JSON in Claude API response"]
    ∧ strBytes "not json" ∉ writesOf (relayResponse
        (fun b => decide (b = encodeErrorBody "Invalid JSON in Claude API response"))
        true false ⟨200, [], some (strBytes "not json"), []⟩
        ResponseWriter.init) := by
  decide

/-- C4 at a concrete failing input (code bug): on the streaming path the
three SSE headers are `Set` at src/main.go:454-456, but only the pending
header map changes — `WriteHeader(resp.StatusCode)` at src/main.go:396 has
already snapshot and sent the headers, so the caller receives
`Content-Type: application/json` (set at src/main.go:395) and neither the
cache-control nor the keep-alive header, while the body is still streamed. -/
theorem c4_sse_headers_code_bug :
    (relayResponse (fun _ => true) true true
        ⟨200, [], none, [strBytes "data: 1\n\n"]⟩ ResponseWriter.init).sentHeaders
      = [("Content-Type", ["application/json"])]
    ∧ hdrLookup (relayResponse (fun _ => true) true true
        ⟨200, [], none, [strBytes "data: 1\n\n"]⟩ ResponseWriter.init).sentHeaders
        "Cache-Control" = none
    ∧ hdrLookup (relayResponse (fun _ => true) true true
        ⟨200, [], none, [strBytes "data: 1\n\n"]⟩ ResponseWriter.init).sentHeaders
        "Connection" = none
    ∧ hdrLookup (relayResponse (fun _ => true) true true
        ⟨200, [], none, [strBytes "data: 1\n\n"]⟩ ResponseWriter.init).pending
        "Content-Type" = some ["text/event-stream"]
    ∧ hdrLookup (relayResponse (fun _ => true) true true
        ⟨200, [], none, [strBytes "data: 1\n\n"]⟩ ResponseWriter.init).pending
        "Cache-Control" = some ["no-cache"]
    ∧ hdrLookup (relayResponse (fun _ => true) true true
        ⟨200, [], none, [strBytes "data: 1\n\n"]⟩ ResponseWriter.init).pending
        "Connection" = some ["keep-alive"]
    ∧ writesOf (relayResponse (fun _ => true) true true
        ⟨200, [], none, [strBytes "data: 1\n\n"]⟩ ResponseWriter.init)
      = [strBytes "data: 1\n\n"] := by
  decide

/-- C9: per inbound request the handler makes at most one upstream call; a
request rejected at admission or whose body fails JSON parsing makes none,
and a request passing both makes exactly one (there is no retry — the
count is exactly the one `client.Do` at src/main.go:377). -/
theorem c9_single_upstream_call (allowed : String)
    (parseJSON : Bytes → Option (List (String × JValue)))
    (validJSON : Bytes → Bool) (flusherOk : Bool)
    (upstream : Headers → List (String × JValue) → UpstreamOutcome)
    (req : InboundRequest) :
    (handleRequest allowed parseJSON validJSON flusherOk upstream req).2 ≤ 1
    ∧ (validateAPIKey allowed (extractAPIKey req.headers) = false →
        (handleRequest allowed parseJSON validJSON flusherOk upstream req).2 = 0)
    ∧ (parseJSON req.body = none →
        (handleRequest allowed parseJSON validJSON flusherOk upstream req).2 = 0)
    ∧ (validateAPIKey allowed (extractAPIKey req.headers) = true →
        parseJSON req.body ≠ none →
        (handleRequest allowed parseJSON validJSON flusherOk upstream req).2 = 1) := by
  by_cases hv : validateAPIKey allowed (extractAPIKey req.headers) = false
  · simp [handleRequest, hv]
  · cases hp : parseJSON req.body with
    | none => simp [handleRequest, hv, hp]
    | some requestData =>
        cases hu : upstream (buildProxyHeaders req.headers) (normalizePayload requestData) with
        | transportError => simp [handleRequest, hv, hp, hu]
        | response resp => simp [handleRequest, hv, hp, hu]

theorem c9_single_upstream_call_witness :
    (handleRequest "" (fun _ => some []) (fun _ => true) true
        (fun _ _ => UpstreamOutcome.transportError)
        ⟨[("x-api-key", ["k"])], []⟩).2 = 1 :=
  (c9_single_upstream_call "" (fun _ => some []) (fun _ => true) true
      (fun _ _ => UpstreamOutcome.transportError)
      ⟨[("x-api-key", ["k"])], []⟩).2.2.2 (by decide) (by simp)

end Prxy
